import Mathlib

/-!
Verification development for the katex-rs engine-abstraction core.

The Rust source is shallowly embedded: machine integers become `Int`/`Nat`,
`f64` payloads are carried as IEEE-754 bit patterns (the code only stores and
moves floats; the single cast `as i32` is modelled by decoding the bits),
fallible operations return `Except`, and the per-thread cache is explicit
state passing.  External crates (ducc, quick_js, wasm-bindgen) are modelled
only as far as the source under verification exercises them, with each such
model marked in its doc comment.
-/

set_option autoImplicit false

namespace KatexRs

/-! ## IEEE-754 binary64 bit patterns -/

/-- A Rust `f64`, represented by its IEEE-754 binary64 bit pattern (a natural
number below 2^64).  The embedded code never performs float arithmetic:
payloads are stored and returned bit-exactly. -/
abbrev Float64 := Nat

/-- Magnitude of the integer part (truncation toward zero) of the finite
value encoded by an f64 bit pattern. -/
def f64TruncMagnitude (bits : Float64) : Nat :=
  let e := bits / 2 ^ 52 % 2 ^ 11
  let m := bits % 2 ^ 52
  let mFull := if e = 0 then m else m + 2 ^ 52
  let eAdj := if e = 0 then 1 else e
  if 1075 ≤ eAdj then mFull * 2 ^ (eAdj - 1075) else mFull / 2 ^ (1075 - eAdj)

/-- Rust numeric cast `as i32` applied to an `f64` (used by duktabe.rs
`Value::into_int` on an engine `Number`): truncate toward zero, saturate at
the `i32` bounds, and map NaN to 0. -/
def f64AsI32 (bits : Float64) : Int :=
  let s := bits / 2 ^ 63
  let e := bits / 2 ^ 52 % 2 ^ 11
  let m := bits % 2 ^ 52
  if e = 2 ^ 11 - 1 then
    if m ≠ 0 then 0
    else if s = 0 then (2 ^ 31 - 1 : Int) else -(2 ^ 31)
  else
    let mag : Int := Int.ofNat (f64TruncMagnitude bits)
    let v : Int := if s = 0 then mag else -mag
    max (-(2 ^ 31)) (min v (2 ^ 31 - 1))

/-- Floor of the base-2 logarithm, by structural recursion on a fuel bound
(so that it reduces inside the kernel). -/
def log2Fuel : Nat → Nat → Nat
  | 0, _ => 0
  | fuel + 1, n => if n ≤ 1 then 0 else log2Fuel fuel (n / 2) + 1

/-- Floor of the base-2 logarithm of a positive natural. -/
def natLog2 (n : Nat) : Nat := log2Fuel n n

/-- Bit pattern of the `f64` exactly representing a natural number below
2^53 (used for Rust's lossless `i32 as f64` cast in duktabe.rs marshaling). -/
def natToF64Bits (n : Nat) : Float64 :=
  if n = 0 then 0
  else
    let k := natLog2 n
    (k + 1023) * 2 ^ 52 + (n - 2 ^ k) * 2 ^ (52 - k)

/-- Rust numeric cast `i32 as f64` (always exact). -/
def i32AsF64 (n : Int) : Float64 :=
  if 0 ≤ n then natToF64Bits n.toNat else 2 ^ 63 + natToF64Bits (-n).toNat

/-! ## UTF-8 -/

/-- UTF-8 encoding of one unicode scalar value. -/
def utf8EncodeCharNat (c : Nat) : List Nat :=
  if c < 0x80 then [c]
  else if c < 0x800 then [0xC0 + c / 64, 0x80 + c % 64]
  else if c < 0x10000 then [0xE0 + c / 4096, 0x80 + c / 64 % 64, 0x80 + c % 64]
  else [0xF0 + c / 262144, 0x80 + c / 4096 % 64, 0x80 + c / 64 % 64, 0x80 + c % 64]

/-- The raw bytes of a Rust `String` (UTF-8 encoding of its characters). -/
def strBytes (s : String) : List Nat :=
  (s.data.map (fun c => utf8EncodeCharNat c.toNat)).flatten

/-- UTF-8 decoding of a byte sequence, following the validity table used by
Rust's `String::from_utf8` (rejecting overlong forms, surrogate code points
and values above U+10FFFF); `none` on invalid input. -/
def utf8DecodeChars : List Nat → Option (List Char)
  | [] => some []
  | b :: rest =>
    if b ≤ 0x7F then
      (utf8DecodeChars rest).map (fun cs => Char.ofNat b :: cs)
    else if 0xC2 ≤ b ∧ b ≤ 0xDF then
      match rest with
      | c1 :: r =>
        if 0x80 ≤ c1 ∧ c1 ≤ 0xBF then
          (utf8DecodeChars r).map (fun cs => Char.ofNat ((b - 0xC0) * 64 + (c1 - 0x80)) :: cs)
        else none
      | [] => none
    else if 0xE0 ≤ b ∧ b ≤ 0xEF then
      match rest with
      | c1 :: c2 :: r =>
        let lo1 : Nat := if b = 0xE0 then 0xA0 else 0x80
        let hi1 : Nat := if b = 0xED then 0x9F else 0xBF
        if (lo1 ≤ c1 ∧ c1 ≤ hi1) ∧ (0x80 ≤ c2 ∧ c2 ≤ 0xBF) then
          (utf8DecodeChars r).map (fun cs =>
            Char.ofNat ((b - 0xE0) * 4096 + (c1 - 0x80) * 64 + (c2 - 0x80)) :: cs)
        else none
      | _ => none
    else if 0xF0 ≤ b ∧ b ≤ 0xF4 then
      match rest with
      | c1 :: c2 :: c3 :: r =>
        let lo1 : Nat := if b = 0xF0 then 0x90 else 0x80
        let hi1 : Nat := if b = 0xF4 then 0x8F else 0xBF
        if (lo1 ≤ c1 ∧ c1 ≤ hi1) ∧ (0x80 ≤ c2 ∧ c2 ≤ 0xBF) ∧ (0x80 ≤ c3 ∧ c3 ≤ 0xBF) then
          (utf8DecodeChars r).map (fun cs =>
            Char.ofNat ((b - 0xF0) * 262144 + (c1 - 0x80) * 4096 + (c2 - 0x80) * 64 + (c3 - 0x80)) :: cs)
        else none
      | _ => none
    else none

/-- Model of Rust `String::from_utf8` over raw engine bytes. -/
def stringFromUtf8 (bytes : List Nat) : Option String :=
  (utf8DecodeChars bytes).map (fun cs => String.mk cs)

/-! ## Association-list model of `HashMap` -/

/-- Insert into an association-list model of Rust's `HashMap`: replace the
value at an existing key in place, otherwise append. -/
def hmInsert {κ α : Type} [DecidableEq κ] (k : κ) (v : α) :
    List (κ × α) → List (κ × α)
  | [] => [(k, v)]
  | (k0, v0) :: rest =>
    if k0 = k then (k0, v) :: rest else (k0, v0) :: hmInsert k v rest

/-- Model of `collect()` of a key-value iterator into a `HashMap`: left fold of
`insert`, so a later pair with the same key overwrites an earlier one. -/
def hmOfList {κ α : Type} [DecidableEq κ] (l : List (κ × α)) : List (κ × α) :=
  l.foldl (fun m kv => hmInsert kv.1 kv.2 m) []

/-- Keys of the association-list map. -/
def hmKeys {κ α : Type} (m : List (κ × α)) : List κ :=
  m.map Prod.fst

/-- Lookup in the association-list map. -/
def hmFind {κ α : Type} [DecidableEq κ] (k : κ) : List (κ × α) → Option α
  | [] => none
  | (k0, v0) :: rest => if k0 = k then some v0 else hmFind k rest

/-- The value of the LAST pair carrying key `k` in a raw pair sequence (the
reference for the last-write-wins rule of `collect()`). -/
def hmLast {κ α : Type} [DecidableEq κ] (k : κ) : List (κ × α) → Option α
  | [] => none
  | kv :: rest =>
    match hmLast k rest with
    | some v => some v
    | none => if kv.1 = k then some kv.2 else none

/-! ## The crate error taxonomy (src/src/error.rs and lib.rs) -/

/-- katex-rs `Error`: the three-kind taxonomy, each carrying a detail string. -/
inductive Error where
  | jsInitError (detail : String)
  | jsExecError (detail : String)
  | jsValueError (detail : String)
deriving DecidableEq, Repr

/-- The derived `impl Clone for Error`: cloning copies the detail string, so a
clone's content equals the original's. -/
def Error.clone (e : Error) : Error := e

/-! ## Model of the ducc crate surface used by src -/

/-- ducc `RuntimeErrorCode` (external crate); src only constructs
`ReferenceError`. -/
inductive RuntimeErrorCode where
  | referenceError
  | otherCode (tag : Nat)
deriving DecidableEq, Repr

/-- ducc `ErrorKind` (external crate), the variants the source code matches
on or constructs. -/
inductive DuccError where
  | toJsConversionError (fromTy toTy : String)
  | fromJsConversionError (fromTy toTy : String)
  | runtimeError (code : RuntimeErrorCode) (name : String)
  | externalError (msg : String)
deriving DecidableEq, Repr

/-- Modelled from the ducc crate (external): the display text of a ducc
error, as produced by `e.to_string()`.  The model keeps each variant's text
non-empty and embeds the variant's message fields. -/
def duccErrorDisplay : DuccError → String
  | .toJsConversionError f t => "error converting " ++ f ++ " to JS " ++ t
  | .fromJsConversionError f t => "error converting JS " ++ f ++ " to " ++ t
  | .runtimeError _ name => "runtime error: " ++ name
  | .externalError m => "external error: " ++ m

/-- ducc `Value` (external crate) as observed through src: the engine's
runtime tags.  Engine arrays and objects are modelled by their contents
(`push` on an engine array appends), and engine strings carry raw bytes
(duktape strings need not be valid UTF-8).  Functions are opaque handles. -/
inductive DuccValue where
  | undefined
  | null
  | boolean (b : Bool)
  | number (bits : Float64)
  | str (bytes : List Nat)
  | array (elems : List DuccValue)
  | object (entries : List (List Nat × DuccValue))
  | function (fid : Nat)

/-- ducc `Value::type_name` (external crate), used in its conversion-error
messages. -/
def DuccValue.typeName : DuccValue → String
  | .undefined => "undefined"
  | .null => "null"
  | .boolean _ => "boolean"
  | .number _ => "number"
  | .str _ => "string"
  | .array _ => "array"
  | .object _ => "object"
  | .function _ => "function"

/-! ## duktabe.rs: the self-referencing ducc adapter -/

/-- duktabe.rs `ValueDucc`: an engine-borrowed value, storing the owning
engine (`Arc<ducc::Ducc>`, modelled by an engine identity) together with the
borrowed `ducc::Value`. -/
structure ValueDucc where
  engine : Nat
  value : DuccValue

/-- duktabe.rs `Value`/`ValueInner`/`ValueRust`.  The Rust source wraps a
two-variant `ValueInner` (engine-borrowed `Ducc`, host-owned `Rust`) in a
newtype `Value`; the embedding flattens the wrapper layers into one
inductive, with `ducc` for the borrowed alternative and one constructor per
`ValueRust` variant. -/
inductive Value where
  | ducc (v : ValueDucc)
  | null
  | vbool (b : Bool)
  | vint (n : Int)
  | vfloat (x : Float64)
  | vstr (s : String)
  | varray (elems : List Value)
  | vobject (entries : List (String × Value))

/-- duktabe.rs `JsValue::from_bool`. -/
def Value.from_bool (input : Bool) : Value := .vbool input

/-- duktabe.rs `JsValue::from_int`. -/
def Value.from_int (input : Int) : Value := .vint input

/-- duktabe.rs `JsValue::from_float`. -/
def Value.from_float (input : Float64) : Value := .vfloat input

/-- duktabe.rs `JsValue::from_string`. -/
def Value.from_string (input : String) : Value := .vstr input

/-- duktabe.rs `JsValue::from_array`: `input.collect()` into a `Vec`. -/
def Value.from_array (input : List Value) : Value := .varray input

/-- duktabe.rs `JsValue::from_object`: `input.collect()` into a `HashMap`. -/
def Value.from_object (input : List (String × Value)) : Value :=
  .vobject (hmOfList input)

/-- duktabe.rs `JsValue::is_null`. -/
def Value.is_null : Value → Bool
  | .ducc v => match v.value with | .null => true | _ => false
  | .null => true
  | _ => false

/-- duktabe.rs `JsValue::is_bool`. -/
def Value.is_bool : Value → Bool
  | .ducc v => match v.value with | .boolean _ => true | _ => false
  | .vbool _ => true
  | _ => false

/-- duktabe.rs `JsValue::is_int`: an engine `Number` counts as an int. -/
def Value.is_int : Value → Bool
  | .ducc v => match v.value with | .number _ => true | _ => false
  | .vint _ => true
  | _ => false

/-- duktabe.rs `JsValue::is_float`: an engine `Number` counts as a float. -/
def Value.is_float : Value → Bool
  | .ducc v => match v.value with | .number _ => true | _ => false
  | .vfloat _ => true
  | _ => false

/-- duktabe.rs `JsValue::is_string`. -/
def Value.is_string : Value → Bool
  | .ducc v => match v.value with | .str _ => true | _ => false
  | .vstr _ => true
  | _ => false

/-- duktabe.rs `JsValue::into_bool`. -/
def Value.into_bool : Value → Except Error Bool
  | .ducc v =>
    match v.value with
    | .boolean b => .ok b
    | _ => .error (.jsValueError "not a bool")
  | .vbool b => .ok b
  | _ => .error (.jsValueError "not a bool")

/-- duktabe.rs `JsValue::into_int`: on an engine `Number` the source casts
the `f64` payload with `as i32`. -/
def Value.into_int : Value → Except Error Int
  | .ducc v =>
    match v.value with
    | .number bits => .ok (f64AsI32 bits)
    | _ => .error (.jsValueError "not an int")
  | .vint n => .ok n
  | _ => .error (.jsValueError "not an int")

/-- duktabe.rs `JsValue::into_float`. -/
def Value.into_float : Value → Except Error Float64
  | .ducc v =>
    match v.value with
    | .number bits => .ok bits
    | _ => .error (.jsValueError "not a float")
  | .vfloat x => .ok x
  | _ => .error (.jsValueError "not a float")

/-- duktabe.rs `JsValue::into_string`: an engine string's bytes go through
`String::from_utf8`, failing with a `ValueError` on invalid UTF-8. -/
def Value.into_string : Value → Except Error String
  | .ducc v =>
    match v.value with
    | .str bytes =>
      match stringFromUtf8 bytes with
      | some s => .ok s
      | none => .error (.jsValueError "cannot extract string from bytes")
    | _ => .error (.jsValueError "not a string")
  | .vstr s => .ok s
  | _ => .error (.jsValueError "not a string")

/-- Whether a duktabe `Value` is host-constructed (the `ValueInner::Rust`
alternative) rather than engine-borrowed. -/
def Value.isHost : Value → Bool
  | .ducc _ => false
  | _ => true

/-- The key list of an object-tagged `Value` (empty for any other tag). -/
def Value.objectKeys : Value → List String
  | .vobject entries => hmKeys entries
  | _ => []

/-- duktabe.rs `ValueDucc::to_value`: re-marshaling an engine-borrowed value
into an engine always fails with a ducc `ReferenceError`.  The source guards
with a pointer comparison between two distinct local reference variables
(`addr_of!(ducc)` vs `addr_of!(my_duc)`), intending an engine-identity check;
both branches return `Err`, the same-engine arm with the message
"same engine, but still somewhat unsafe" and the other with
"different engines".  The embedding keys the branch on engine identity; for
distinct engines both readings of the guard agree. -/
def ValueDucc.to_value (v : ValueDucc) (target : Nat) : Except DuccError DuccValue :=
  if v.engine = target then
    .error (.runtimeError .referenceError "same engine, but still somewhat unsafe")
  else
    .error (.runtimeError .referenceError "different engines")

mutual

/-- duktabe.rs `impl ToValue for Value` / `impl ToValue for ValueRust`:
marshal a host value into engine `target`.  Engine-side allocation
(`create_string`, `push`, `create_object_from`), which the source propagates
with `?`, is modelled as succeeding; an engine-borrowed input defers to
`ValueDucc::to_value` and therefore fails. -/
def marshalValue : Value → Nat → Except DuccError DuccValue
  | .ducc v, target => v.to_value target
  | .null, _ => .ok .null
  | .vbool b, _ => .ok (.boolean b)
  | .vint n, _ => .ok (.number (i32AsF64 n))
  | .vfloat x, _ => .ok (.number x)
  | .vstr s, _ => .ok (.str (strBytes s))
  | .varray elems, target =>
    match marshalList elems target with
    | .ok ds => .ok (.array ds)
    | .error e => .error e
  | .vobject entries, target =>
    match marshalEntries entries target with
    | .ok ds => .ok (.object ds)
    | .error e => .error e

/-- The `for v in value { array.push(v.to_value(ducc)?) }` loop of the array
arm: marshal the elements in order, stopping at the first error. -/
def marshalList : List Value → Nat → Except DuccError (List DuccValue)
  | [], _ => .ok []
  | v :: rest, target =>
    match marshalValue v target with
    | .error e => .error e
    | .ok d =>
      match marshalList rest target with
      | .error e => .error e
      | .ok ds => .ok (d :: ds)

/-- The `value.into_iter().map(...).collect::<Result<Vec<_>>>()` of the
object arm: marshal the entries in order, stopping at the first error. -/
def marshalEntries : List (String × Value) → Nat →
    Except DuccError (List (List Nat × DuccValue))
  | [], _ => .ok []
  | (k, v) :: rest, target =>
    match marshalValue v target with
    | .error e => .error e
    | .ok d =>
      match marshalEntries rest target with
      | .error e => .error e
      | .ok ds => .ok ((strBytes k, d) :: ds)

end

/-- duktabe.rs `Engine::eval`: runs the native `exec` on the source text
(the external engine's outcome on that text is supplied as `execOutcome`) and
wraps the borrowed result; any native error is stringified into
`JsExecError`.  The function is total: malformed script input surfaces as a
recoverable error, never a panic. -/
def engineEval (engineId : Nat) (execOutcome : Except DuccError DuccValue) :
    Except Error Value :=
  match execOutcome with
  | .ok dv => .ok (.ducc ⟨engineId, dv⟩)
  | .error e => .error (.jsExecError (duccErrorDisplay e))

/-- duktabe.rs `Engine::call_function`: look up the named global function
(the native lookup outcome is supplied as `lookupOutcome`), marshal each
argument with `to_value` in order, and invoke (the native call outcome is
supplied as `callOutcome`); every native error along the way is stringified
into `JsExecError`. -/
def engineCallFunction (engineId : Nat)
    (lookupOutcome : Except DuccError Nat)
    (callOutcome : Nat → List DuccValue → Except DuccError DuccValue)
    (args : List Value) : Except Error Value :=
  match lookupOutcome with
  | .error e => .error (.jsExecError (duccErrorDisplay e))
  | .ok f =>
    match marshalList args engineId with
    | .error e => .error (.jsExecError (duccErrorDisplay e))
    | .ok dargs =>
      match callOutcome f dargs with
      | .error e => .error (.jsExecError (duccErrorDisplay e))
      | .ok dv => .ok (.ducc ⟨engineId, dv⟩)

/-! ## duktape.rs: the scoped ducc adapter -/

/-- Modelled from the ducc crate (external): `globals().get::<String,
ducc::Function>(name)`.  Property lookup follows JS semantics (a missing key
yields `undefined`); the typed read then applies `FromValue` for `Function`,
which fails with a from-JS conversion error naming the value's type whenever
the value is not a function. -/
def globalsGetFunction (globals : List (List Nat × DuccValue)) (name : String) :
    Except DuccError Nat :=
  let v :=
    match hmFind (strBytes name) globals with
    | some v => v
    | none => DuccValue.undefined
  match v with
  | .function fid => .ok fid
  | other => .error (.fromJsConversionError other.typeName "Function")

/-- duktape.rs `impl From<ducc::Error> for Error`: the two conversion kinds
map to `JsValueError`, everything else to `JsExecError`. -/
def errorFromDucc (e : DuccError) : Error :=
  match e with
  | .toJsConversionError _ _ => .jsValueError (duccErrorDisplay e)
  | .fromJsConversionError _ _ => .jsValueError (duccErrorDisplay e)
  | _ => .jsExecError (duccErrorDisplay e)

/-- duktape.rs `Scope::call_function`: look up the named global as a
`ducc::Function` over the scope's globals, collect the (already
engine-resident) argument values, and invoke (the native call outcome is
supplied as `callOutcome`); each ducc error converts through
`From<ducc::Error>`. -/
def scopeCallFunction (globals : List (List Nat × DuccValue))
    (callOutcome : Nat → List DuccValue → Except DuccError DuccValue)
    (name : String) (args : List DuccValue) : Except Error DuccValue :=
  match globalsGetFunction globals name with
  | .error e => .error (errorFromDucc e)
  | .ok f =>
    match callOutcome f args with
    | .error e => .error (errorFromDucc e)
    | .ok v => .ok v

/-- duktape.rs `Scope::eval`: run the native `exec` (outcome supplied); the
native error converts through `From<ducc::Error>`. -/
def scopeEval (execOutcome : Except DuccError DuccValue) : Except Error DuccValue :=
  match execOutcome with
  | .ok v => .ok v
  | .error e => .error (errorFromDucc e)

/-! ## wasm_js.rs: the host-embedded adapter -/

/-- A `wasm_bindgen::JsValue` (external): an opaque foreign handle, carried
with the payload its `Debug` implementation prints inside `JsValue(...)`. -/
structure WasmJsV where
  dbg : String

/-- Modelled from the wasm-bindgen crate (external): `format!("{:?}", v)` on
a foreign value always prints a non-empty `JsValue(...)` wrapper. -/
def wasmDebugFormat (v : WasmJsV) : String :=
  "JsValue(" ++ v.dbg ++ ")"

/-- wasm_js.rs `Scope::eval`: proxy to `js_sys::eval` (host outcome
supplied; the `Err` side is the thrown host exception) and stringify any
host error into `JsExecError`.  Total: malformed script input surfaces as a
recoverable error, never a panic. -/
def wasmEval (evalOutcome : Except WasmJsV WasmJsV) : Except Error WasmJsV :=
  match evalOutcome with
  | .ok v => .ok v
  | .error e => .error (.jsExecError (wasmDebugFormat e))

/-- wasm_js.rs `Scope::call_function`: `Reflect::get` on the host global
(outcome supplied), unchecked cast to `Function`, then `apply` (outcome
supplied, as a function of the fetched callee and the argument array); every
host error is stringified into `JsExecError`. -/
def wasmCallFunction (reflectGet : Except WasmJsV WasmJsV)
    (applyOutcome : WasmJsV → List WasmJsV → Except WasmJsV WasmJsV)
    (args : List WasmJsV) : Except Error WasmJsV :=
  match reflectGet with
  | .error e => .error (.jsExecError (wasmDebugFormat e))
  | .ok f =>
    match applyOutcome f args with
    | .error e => .error (.jsExecError (wasmDebugFormat e))
    | .ok v => .ok v

/-! ## quick_js.rs: the owned-value adapter -/

/-- quick_js `JsValue` (external crate): fully owned host-representation
values, as constructed and matched by src/src/js_engine/quick_js.rs. -/
inductive QJsValue where
  | null
  | qbool (b : Bool)
  | qint (n : Int)
  | qfloat (x : Float64)
  | qstr (s : String)
  | qarray (elems : List QJsValue)
  | qobject (entries : List (String × QJsValue))

/-- quick_js.rs `JsValue::from_bool`. -/
def QJsValue.from_bool (input : Bool) : QJsValue := .qbool input

/-- quick_js.rs `JsValue::from_int`. -/
def QJsValue.from_int (input : Int) : QJsValue := .qint input

/-- quick_js.rs `JsValue::from_float`. -/
def QJsValue.from_float (input : Float64) : QJsValue := .qfloat input

/-- quick_js.rs `JsValue::from_string`. -/
def QJsValue.from_string (input : String) : QJsValue := .qstr input

/-- quick_js.rs `JsValue::from_array`: collect the elements in order. -/
def QJsValue.from_array (input : List QJsValue) : QJsValue := .qarray input

/-- quick_js.rs `JsValue::from_object`: collect the pairs into a `HashMap`. -/
def QJsValue.from_object (input : List (String × QJsValue)) : QJsValue :=
  .qobject (hmOfList input)

/-- quick_js.rs `JsValue::is_null`. -/
def QJsValue.is_null : QJsValue → Bool
  | .null => true
  | _ => false

/-- quick_js.rs `JsValue::is_bool`. -/
def QJsValue.is_bool : QJsValue → Bool
  | .qbool _ => true
  | _ => false

/-- quick_js.rs `JsValue::is_int`. -/
def QJsValue.is_int : QJsValue → Bool
  | .qint _ => true
  | _ => false

/-- quick_js.rs `JsValue::is_float`. -/
def QJsValue.is_float : QJsValue → Bool
  | .qfloat _ => true
  | _ => false

/-- quick_js.rs `JsValue::is_string`. -/
def QJsValue.is_string : QJsValue → Bool
  | .qstr _ => true
  | _ => false

/-- A quick_js `ExecutionError` (external crate): the native error raised by
`Context::eval` / `Context::call_function` — a missing callable, a script
exception, and so on — carried with the text its `Display` implementation
produces (what `format!` renders). -/
structure QExecError where
  display : String

/-- quick_js.rs `impl From<quick_js::ExecutionError> for Error`: every
native execution error is stringified into `JsExecError`. -/
def errorFromQExec (e : QExecError) : Error :=
  .jsExecError e.display

/-- quick_js.rs `Engine::call_function`: delegate to the native
`Context::call_function` on the unwrapped argument values (the native
outcome on those arguments is supplied as `callOutcome`); the `?` converts
any native `ExecutionError` through `From<quick_js::ExecutionError>`, so
every failure — a name that denotes no global callable included — surfaces
as `JsExecError`. -/
def qjsCallFunction (callOutcome : List QJsValue → Except QExecError QJsValue)
    (args : List QJsValue) : Except Error QJsValue :=
  match callOutcome args with
  | .ok v => .ok v
  | .error e => .error (errorFromQExec e)

/-- Modelled from the spec: quick_js.rs `into_bool` delegates to the quick_js
crate's `TryFrom<JsValue>` (the crate is an external dependency, its source
absent from this repository); per the spec's narrowing invariant, the
conversion succeeds exactly on a matching tag and a mismatch yields the
crate's `ValueError`, which src maps to `Error::JsValueError`. -/
def QJsValue.into_bool : QJsValue → Except Error Bool
  | .qbool b => .ok b
  | _ => .error (.jsValueError "unexpected type")

/-- Modelled from the spec: quick_js.rs `into_int` via the external crate's
`TryFrom<JsValue> for i32` (strict tag match, mismatch to `JsValueError`). -/
def QJsValue.into_int : QJsValue → Except Error Int
  | .qint n => .ok n
  | _ => .error (.jsValueError "unexpected type")

/-- Modelled from the spec: quick_js.rs `into_float` via the external
crate's `TryFrom<JsValue> for f64` (strict tag match, mismatch to
`JsValueError`). -/
def QJsValue.into_float : QJsValue → Except Error Float64
  | .qfloat x => .ok x
  | _ => .error (.jsValueError "unexpected type")

/-- Modelled from the spec: quick_js.rs `into_string` via the external
crate's `TryFrom<JsValue> for String` (strict tag match, mismatch to
`JsValueError`). -/
def QJsValue.into_string : QJsValue → Except Error String
  | .qstr s => .ok s
  | _ => .error (.jsValueError "unexpected type")

/-! ## opts.rs: the engine-abstraction `Opts` -/

/-- opts.rs / lib.rs `OutputType`. -/
inductive OutputType where
  | html
  | mathml
  | htmlAndMathml
deriving DecidableEq, Repr

/-- The string emitted for each `OutputType` by the options transforms. -/
def OutputType.jsName : OutputType → String
  | .html => "html"
  | .mathml => "mathml"
  | .htmlAndMathml => "htmlAndMathml"

/-- opts.rs `Opts` (the engine-abstraction version; it has no
`trust_callback` field).  `macros` models the `HashMap<String, String>` as a
unique-key association list. -/
structure OptsNew where
  display_mode : Option Bool := none
  output_type : Option OutputType := none
  leqno : Option Bool := none
  fleqn : Option Bool := none
  throw_on_error : Option Bool := none
  error_color : Option String := none
  macros : List (String × String) := []
  min_rule_thickness : Option Float64 := none
  max_size : Option (Option Float64) := none
  max_expand : Option (Option Int) := none
  trust : Option Bool := none

/-- Conditional insert: the `if let Some(x) = field { opt.insert(key, f(x)) }`
pattern of the options transforms. -/
def optInsert {α : Type} (k : String) (v? : Option α) (m : List (String × α)) :
    List (String × α) :=
  match v? with
  | some v => hmInsert k v m
  | none => m

/-- opts.rs `Opts::to_js_value`, instantiated at the duktabe `Value` backend:
build a `HashMap<String, T>` by one conditional insert per set field (the
`macros` map only when non-empty; an unset `maxSize` or a set-to-`None`
`maxSize` inserts nothing; `max_expand` set to `None` inserts `i32::MAX`),
then `T::from_object` it.  A pure function of the options record. -/
def OptsNew.to_js_value (o : OptsNew) : Value :=
  let m1 := optInsert "displayMode" (o.display_mode.map Value.from_bool) []
  let m2 := optInsert "output"
    (o.output_type.map (fun t => Value.from_string t.jsName)) m1
  let m3 := optInsert "leqno" (o.leqno.map Value.from_bool) m2
  let m4 := optInsert "fleqn" (o.fleqn.map Value.from_bool) m3
  let m5 := optInsert "throwOnError" (o.throw_on_error.map Value.from_bool) m4
  let m6 := optInsert "errorColor" (o.error_color.map Value.from_string) m5
  let m7 := optInsert "macros"
    (if o.macros.isEmpty then none
     else some (Value.from_object
       (o.macros.map (fun kv => (kv.1, Value.from_string kv.2))))) m6
  let m8 := optInsert "minRuleThickness"
    (o.min_rule_thickness.map Value.from_float) m7
  let m9 := optInsert "maxSize"
    (match o.max_size with
     | some (some x) => some (Value.from_float x)
     | _ => none) m8
  let m10 := optInsert "maxExpand"
    (match o.max_expand with
     | some (some n) => some (Value.from_int n)
     | some none => some (Value.from_int (2 ^ 31 - 1))
     | none => none) m9
  let m11 := optInsert "trust" (o.trust.map Value.from_bool) m10
  Value.from_object m11

/-! ## lib.rs: the quick_js-direct crate root -/

/-- lib.rs `TrustCallback`: an opaque host closure, modelled by an identity. -/
structure TrustCallback where
  cbId : Nat
deriving DecidableEq, Repr

/-- lib.rs `Opts` (the quick_js-direct version, with both `trust` and
`trust_callback`). -/
structure OptsLib where
  display_mode : Option Bool := none
  output_type : Option OutputType := none
  leqno : Option Bool := none
  fleqn : Option Bool := none
  throw_on_error : Option Bool := none
  error_color : Option String := none
  macros : List (String × String) := []
  min_rule_thickness : Option Float64 := none
  max_size : Option (Option Float64) := none
  max_expand : Option (Option Int) := none
  trust : Option Bool := none
  trust_callback : Option TrustCallback := none

/-- lib.rs `Opts::set_trust`: panics (modelled as `Except.error` carrying the
panic message) when `trust_callback` is already set; otherwise stores the
flag. -/
def OptsLib.setTrust (o : OptsLib) (flag : Bool) : Except String OptsLib :=
  if o.trust_callback.isSome then
    .error "Cannot set `trust` and `trust_callback` at the same time"
  else
    .ok { o with trust := some flag }

/-- lib.rs `Opts::set_trust_callback`: panics (modelled as `Except.error`)
when `trust` is already set; otherwise stores the callback. -/
def OptsLib.setTrustCallback (o : OptsLib) (cb : TrustCallback) : Except String OptsLib :=
  if o.trust.isSome then
    .error "Cannot set `trust` and `trust_callback` at the same time"
  else
    .ok { o with trust_callback := some cb }

/-- lib.rs `impl Into<JsValue> for Opts`: build a `HashMap<String, JsValue>`
by one conditional insert per set field — except `macros`, which is inserted
unconditionally — and wrap it in `JsValue::Object`.  When `trust_callback`
is set, `"trust"` is (re-)inserted with the marker string
`"USE_TRUST_CALLBACK"`. -/
def OptsLib.intoJsValue (o : OptsLib) : QJsValue :=
  let m1 := optInsert "displayMode" (o.display_mode.map QJsValue.qbool) []
  let m2 := optInsert "output"
    (o.output_type.map (fun t => QJsValue.qstr t.jsName)) m1
  let m3 := optInsert "leqno" (o.leqno.map QJsValue.qbool) m2
  let m4 := optInsert "fleqn" (o.fleqn.map QJsValue.qbool) m3
  let m5 := optInsert "throwOnError" (o.throw_on_error.map QJsValue.qbool) m4
  let m6 := optInsert "errorColor" (o.error_color.map QJsValue.qstr) m5
  let m7 := hmInsert "macros"
    (QJsValue.qobject (o.macros.map (fun kv => (kv.1, QJsValue.qstr kv.2)))) m6
  let m8 := optInsert "minRuleThickness"
    (o.min_rule_thickness.map QJsValue.qfloat) m7
  let m9 := optInsert "maxSize"
    (match o.max_size with
     | some (some x) => some (QJsValue.qfloat x)
     | _ => none) m8
  let m10 := optInsert "maxExpand"
    (match o.max_expand with
     | some (some n) => some (QJsValue.qint n)
     | some none => some (QJsValue.qint (2 ^ 31 - 1))
     | none => none) m9
  let m11 := optInsert "trust" (o.trust.map QJsValue.qbool) m10
  let m12 := optInsert "trust"
    (if o.trust_callback.isSome then some (QJsValue.qstr "USE_TRUST_CALLBACK")
     else none) m11
  QJsValue.qobject m12

/-- lib.rs `OptsBuilder` (generated by derive_builder with
`#[builder(default)]` and option-stripping setters): every field is wrapped
in a further `Option`, `none` meaning "never assigned on this builder". -/
structure OptsLibBuilder where
  display_mode : Option (Option Bool) := none
  output_type : Option (Option OutputType) := none
  leqno : Option (Option Bool) := none
  fleqn : Option (Option Bool) := none
  throw_on_error : Option (Option Bool) := none
  error_color : Option (Option String) := none
  macros : Option (List (String × String)) := none
  min_rule_thickness : Option (Option Float64) := none
  max_size : Option (Option (Option Float64)) := none
  max_expand : Option (Option (Option Int)) := none
  trust : Option (Option Bool) := none
  trust_callback : Option (Option TrustCallback) := none

/-- lib.rs `OptsBuilder::validate` composed with the generated `build`:
reject a builder with both `trust` and `trust_callback` assigned, otherwise
produce an `Opts` taking each unassigned field from `Opts`'s `Default`. -/
def OptsLibBuilder.build (b : OptsLibBuilder) : Except String OptsLib :=
  if b.trust.isSome ∧ b.trust_callback.isSome then
    .error "cannot set `trust` and `trust_callback` at the same time"
  else
    .ok
      { display_mode := b.display_mode.getD none
        output_type := b.output_type.getD none
        leqno := b.leqno.getD none
        fleqn := b.fleqn.getD none
        throw_on_error := b.throw_on_error.getD none
        error_color := b.error_color.getD none
        macros := b.macros.getD []
        min_rule_thickness := b.min_rule_thickness.getD none
        max_size := b.max_size.getD none
        max_expand := b.max_expand.getD none
        trust := b.trust.getD none
        trust_callback := b.trust_callback.getD none }

/-- An `Opts` value obtainable through lib.rs's public construction surface:
`Default`, the in-place setters (`set_trust` / `set_trust_callback` only when
they return instead of panicking), `add_macro`, or a successful
`OptsBuilder::build`. -/
inductive ReachableOpts : OptsLib → Prop where
  | isDefault : ReachableOpts {}
  | setDisplayMode (o : OptsLib) (b : Bool) :
      ReachableOpts o → ReachableOpts { o with display_mode := some b }
  | setOutputType (o : OptsLib) (t : OutputType) :
      ReachableOpts o → ReachableOpts { o with output_type := some t }
  | setLeqno (o : OptsLib) (b : Bool) :
      ReachableOpts o → ReachableOpts { o with leqno := some b }
  | setFleqn (o : OptsLib) (b : Bool) :
      ReachableOpts o → ReachableOpts { o with fleqn := some b }
  | setThrowOnError (o : OptsLib) (b : Bool) :
      ReachableOpts o → ReachableOpts { o with throw_on_error := some b }
  | setErrorColor (o : OptsLib) (c : String) :
      ReachableOpts o → ReachableOpts { o with error_color := some c }
  | addMacroEntry (o : OptsLib) (k v : String) :
      ReachableOpts o → ReachableOpts { o with macros := hmInsert k v o.macros }
  | setMinRuleThickness (o : OptsLib) (x : Float64) :
      ReachableOpts o → ReachableOpts { o with min_rule_thickness := some x }
  | setMaxSize (o : OptsLib) (x : Option Float64) :
      ReachableOpts o → ReachableOpts { o with max_size := some x }
  | setMaxExpand (o : OptsLib) (n : Option Int) :
      ReachableOpts o → ReachableOpts { o with max_expand := some n }
  | viaSetTrust (o o' : OptsLib) (flag : Bool) :
      ReachableOpts o → o.setTrust flag = .ok o' → ReachableOpts o'
  | viaSetTrustCallback (o o' : OptsLib) (cb : TrustCallback) :
      ReachableOpts o → o.setTrustCallback cb = .ok o' → ReachableOpts o'
  | viaBuild (b : OptsLibBuilder) (o : OptsLib) :
      b.build = .ok o → ReachableOpts o

/-! ## lib.rs: the per-thread engine cache -/

/-- quick_js `Context` (external): an opaque engine handle. -/
structure JsContext where
  ctxId : Nat
deriving DecidableEq, Repr

/-- The per-thread slot backing `thread_local! { static KATEX: Result<JsContext> }`:
`none` until the thread's first access, afterwards the memoized `Result` of
`init_katex`.  `initCount` counts the runs of `init_katex` on this thread. -/
structure ThreadCache where
  slot : Option (Except Error JsContext) := none
  initCount : Nat := 0

/-- Lazy thread-local access (`KATEX.with`): the first access on a thread
runs `init_katex` (its outcome on this thread supplied as `init`) exactly
once and memoizes the `Result`, success or failure; every later access
returns the memoized value untouched. -/
def cacheAccess (init : Except Error JsContext) (st : ThreadCache) :
    Except Error JsContext × ThreadCache :=
  match st.slot with
  | some r => (r, st)
  | none => (init, { slot := some init, initCount := st.initCount + 1 })

/-- lib.rs `render_with_opts`: fetch the thread's cached engine; on a cached
initialization failure return a clone of the cached error; otherwise run the
callback registration and the `renderToString` call, abstracted by
`callRender` (the outcome of the engine call plus `into_string`). -/
def renderWithOpts (init : Except Error JsContext)
    (callRender : JsContext → String → OptsLib → Except Error String)
    (input : String) (opts : OptsLib) (st : ThreadCache) :
    Except Error String × ThreadCache :=
  let (r, st') := cacheAccess init st
  match r with
  | .error e => (.error e.clone, st')
  | .ok ctx => (callRender ctx input opts, st')

/-- A sequence of `render_with_opts` calls on one thread, returning the list
of results and the final cache state. -/
def renderMany (init : Except Error JsContext)
    (callRender : JsContext → String → OptsLib → Except Error String) :
    List (String × OptsLib) → ThreadCache → List (Except Error String) × ThreadCache
  | [], st => ([], st)
  | (input, opts) :: calls, st =>
    let (r, st') := renderWithOpts init callRender input opts st
    let (rs, st'') := renderMany init callRender calls st'
    (r :: rs, st'')

/-! ## Lemmas about the association-list `HashMap` model -/

@[simp]
theorem hmKeys_nil {κ α : Type} : hmKeys ([] : List (κ × α)) = [] := rfl

@[simp]
theorem hmKeys_cons {κ α : Type} (kv : κ × α) (m : List (κ × α)) :
    hmKeys (kv :: m) = kv.1 :: hmKeys m := rfl

theorem mem_hmKeys_hmInsert {κ α : Type} [DecidableEq κ] (a k : κ) (v : α)
    (m : List (κ × α)) :
    a ∈ hmKeys (hmInsert k v m) ↔ a = k ∨ a ∈ hmKeys m := by
  induction m with
  | nil => simp [hmInsert]
  | cons kv rest ih =>
    obtain ⟨k0, v0⟩ := kv
    by_cases h : k0 = k
    · subst h
      simp [hmInsert]
    · simp [hmInsert, h, ih]
      tauto

theorem hmFind_hmInsert {κ α : Type} [DecidableEq κ] (kI k : κ) (v : α)
    (m : List (κ × α)) :
    hmFind k (hmInsert kI v m) = if kI = k then some v else hmFind k m := by
  induction m with
  | nil => simp [hmInsert, hmFind]
  | cons kv rest ih =>
    obtain ⟨k0, v0⟩ := kv
    by_cases h : k0 = kI
    · subst h
      by_cases hk : k0 = k <;> simp [hmInsert, hmFind, hk]
    · by_cases h1 : k0 = k <;> by_cases h2 : kI = k <;>
        simp_all [hmInsert, hmFind, h, h1, h2]

theorem hmKeys_hmInsert_eq {κ α : Type} [DecidableEq κ] (k : κ) (v : α)
    (m : List (κ × α)) :
    hmKeys (hmInsert k v m) =
      if k ∈ hmKeys m then hmKeys m else hmKeys m ++ [k] := by
  induction m with
  | nil => simp [hmInsert]
  | cons kv rest ih =>
    obtain ⟨k0, v0⟩ := kv
    by_cases h : k0 = k
    · subst h; simp [hmInsert]
    · by_cases hm : k ∈ hmKeys rest <;>
        simp [hmInsert, h, ih, hm, Ne.symm h]

theorem nodup_hmKeys_hmInsert {κ α : Type} [DecidableEq κ] (k : κ) (v : α)
    (m : List (κ × α)) (hnd : (hmKeys m).Nodup) :
    (hmKeys (hmInsert k v m)).Nodup := by
  rw [hmKeys_hmInsert_eq]
  by_cases hm : k ∈ hmKeys m <;> simp [hm, List.nodup_append, hnd]

theorem hmFind_foldl {κ α : Type} [DecidableEq κ] (k : κ) (l : List (κ × α))
    (acc : List (κ × α)) :
    hmFind k (l.foldl (fun m kv => hmInsert kv.1 kv.2 m) acc) =
      match hmLast k l with
      | some v => some v
      | none => hmFind k acc := by
  induction l generalizing acc with
  | nil => simp [hmLast]
  | cons kv rest ih =>
    simp only [List.foldl_cons, hmLast, ih, hmFind_hmInsert]
    rcases h : hmLast k rest with _ | v
    · by_cases hk : kv.1 = k <;> simp [hk]
    · simp

theorem hmFind_hmOfList {κ α : Type} [DecidableEq κ] (k : κ) (l : List (κ × α)) :
    hmFind k (hmOfList l) = hmLast k l := by
  rw [hmOfList, hmFind_foldl]
  rcases hmLast k l with _ | v <;> simp [hmFind]

theorem nodup_hmKeys_foldl {κ α : Type} [DecidableEq κ] (l : List (κ × α))
    (acc : List (κ × α)) (hnd : (hmKeys acc).Nodup) :
    (hmKeys (l.foldl (fun m kv => hmInsert kv.1 kv.2 m) acc)).Nodup := by
  induction l generalizing acc with
  | nil => exact hnd
  | cons kv rest ih =>
    exact ih _ (nodup_hmKeys_hmInsert _ _ _ hnd)

theorem nodup_hmKeys_hmOfList {κ α : Type} [DecidableEq κ] (l : List (κ × α)) :
    (hmKeys (hmOfList l)).Nodup :=
  nodup_hmKeys_foldl l [] (by simp)

theorem mem_hmKeys_optInsert {α : Type} (a k : String) (v? : Option α)
    (m : List (String × α)) :
    a ∈ hmKeys (optInsert k v? m) ↔ (a = k ∧ v?.isSome) ∨ a ∈ hmKeys m := by
  cases v? <;> simp [optInsert, mem_hmKeys_hmInsert]

/-! ## Marshaling lemmas -/

theorem marshalList_forall2 (l : List Value) (eng : Nat) (es : List DuccValue)
    (h : marshalList l eng = .ok es) :
    List.Forall₂ (fun v d => marshalValue v eng = .ok d) l es := by
  induction l generalizing es with
  | nil =>
    simp only [marshalList] at h
    cases h
    exact List.Forall₂.nil
  | cons v rest ih =>
    simp only [marshalList] at h
    cases hv : marshalValue v eng with
    | error e => rw [hv] at h; cases h
    | ok d =>
      rw [hv] at h
      cases hr : marshalList rest eng with
      | error e => rw [hr] at h; cases h
      | ok ds =>
        rw [hr] at h
        cases h
        exact List.Forall₂.cons hv (ih _ hr)

/-! ## Claim theorems -/

/-- C9: object construction preserves key uniqueness with a last-write-wins
rule: `from_object` (on both the duktabe and the quick_js backends) collects
into a `HashMap`, whose key list has no duplicates and whose lookup returns
the LAST value supplied for each key; in particular the pair sequence
`[("k","v1"), ("k","v2")]` yields exactly the one entry `("k","v2")`. -/
theorem from_object_last_write_wins :
    (∀ (l : List (String × Value)) (k : String),
      Value.from_object l = Value.vobject (hmOfList l) ∧
      (hmKeys (hmOfList l)).Nodup ∧
      hmFind k (hmOfList l) = hmLast k l) ∧
    (Value.from_object [("k", Value.vstr "v1"), ("k", Value.vstr "v2")] =
      Value.vobject [("k", Value.vstr "v2")]) ∧
    (∀ (l : List (String × QJsValue)) (k : String),
      QJsValue.from_object l = QJsValue.qobject (hmOfList l) ∧
      (hmKeys (hmOfList l)).Nodup ∧
      hmFind k (hmOfList l) = hmLast k l) ∧
    (QJsValue.from_object [("k", QJsValue.qstr "v1"), ("k", QJsValue.qstr "v2")] =
      QJsValue.qobject [("k", QJsValue.qstr "v2")]) := by
  refine ⟨fun l k => ⟨rfl, nodup_hmKeys_hmOfList l, hmFind_hmOfList k l⟩, ?_,
    fun l k => ⟨rfl, nodup_hmKeys_hmOfList l, hmFind_hmOfList k l⟩, ?_⟩
  · simp [Value.from_object, hmOfList, hmInsert]
  · simp [QJsValue.from_object, hmOfList, hmInsert]

/-- C8: arrays preserve insertion order.  On the duktabe backend,
`from_array` stores the element sequence as given, and marshaling the array
into a native engine array (`push` per element, in order) produces an engine
array whose `i`-th element is the marshaling of the `i`-th input element; on
the quick_js backend `from_array` likewise stores the sequence as given. -/
theorem from_array_preserves_order :
    (∀ l : List Value, Value.from_array l = Value.varray l) ∧
    (∀ (l : List Value) (eng : Nat) (es : List DuccValue),
      marshalValue (Value.from_array l) eng = .ok (DuccValue.array es) →
      es.length = l.length ∧
        List.Forall₂ (fun v d => marshalValue v eng = .ok d) l es) ∧
    (∀ l : List QJsValue, QJsValue.from_array l = QJsValue.qarray l) := by
  refine ⟨fun l => rfl, fun l eng es h => ?_, fun l => rfl⟩
  have h' : marshalList l eng = .ok es := by
    rw [Value.from_array] at h
    simp only [marshalValue] at h
    cases hm : marshalList l eng with
    | error e => rw [hm] at h; cases h
    | ok ds => rw [hm] at h; cases h; rfl
  have hf := marshalList_forall2 l eng es h'
  exact ⟨hf.length_eq.symm, hf⟩

/-- Witness for C8: the concrete array `[from_bool true, from_int 1]`
marshals to the engine array with the two marshalled elements in the same
positions. -/
theorem from_array_preserves_order_witness :
    marshalValue (Value.from_array [Value.from_bool true, Value.from_int 1]) 0 =
      .ok (DuccValue.array [DuccValue.boolean true, DuccValue.number (i32AsF64 1)]) ∧
    List.Forall₂ (fun v d => marshalValue v 0 = .ok d)
      [Value.from_bool true, Value.from_int 1]
      [DuccValue.boolean true, DuccValue.number (i32AsF64 1)] := by
  have hmar : marshalValue (Value.from_array [Value.from_bool true, Value.from_int 1]) 0 =
      .ok (DuccValue.array [DuccValue.boolean true, DuccValue.number (i32AsF64 1)]) := by
    simp [Value.from_array, Value.from_bool, Value.from_int, marshalValue, marshalList]
  exact ⟨hmar, (from_array_preserves_order.2.1 _ 0 _ hmar).2⟩

/-- C4: for every primitive constructor `from_T`, the constructed value
satisfies `is_T`, `into_T` returns the original payload (strings exactly),
and every other narrowing fails with a `ValueError` — on the duktabe backend
(fully from source) and on the quick_js backend (whose narrowing conversions
live in the external quick_js crate and are modelled from the spec). -/
theorem primitive_roundtrip_and_mismatch :
    (∀ b : Bool,
      (Value.from_bool b).is_bool = true ∧
      (Value.from_bool b).into_bool = .ok b ∧
      (Value.from_bool b).into_int = .error (.jsValueError "not an int") ∧
      (Value.from_bool b).into_float = .error (.jsValueError "not a float") ∧
      (Value.from_bool b).into_string = .error (.jsValueError "not a string")) ∧
    (∀ n : Int,
      (Value.from_int n).is_int = true ∧
      (Value.from_int n).into_int = .ok n ∧
      (Value.from_int n).into_bool = .error (.jsValueError "not a bool") ∧
      (Value.from_int n).into_float = .error (.jsValueError "not a float") ∧
      (Value.from_int n).into_string = .error (.jsValueError "not a string")) ∧
    (∀ x : Float64,
      (Value.from_float x).is_float = true ∧
      (Value.from_float x).into_float = .ok x ∧
      (Value.from_float x).into_bool = .error (.jsValueError "not a bool") ∧
      (Value.from_float x).into_int = .error (.jsValueError "not an int") ∧
      (Value.from_float x).into_string = .error (.jsValueError "not a string")) ∧
    (∀ s : String,
      (Value.from_string s).is_string = true ∧
      (Value.from_string s).into_string = .ok s ∧
      (Value.from_string s).into_bool = .error (.jsValueError "not a bool") ∧
      (Value.from_string s).into_int = .error (.jsValueError "not an int") ∧
      (Value.from_string s).into_float = .error (.jsValueError "not a float")) ∧
    (∀ b : Bool,
      (QJsValue.from_bool b).is_bool = true ∧
      (QJsValue.from_bool b).into_bool = .ok b ∧
      (QJsValue.from_bool b).into_int = .error (.jsValueError "unexpected type") ∧
      (QJsValue.from_bool b).into_float = .error (.jsValueError "unexpected type") ∧
      (QJsValue.from_bool b).into_string = .error (.jsValueError "unexpected type")) ∧
    (∀ n : Int,
      (QJsValue.from_int n).is_int = true ∧
      (QJsValue.from_int n).into_int = .ok n ∧
      (QJsValue.from_int n).into_bool = .error (.jsValueError "unexpected type") ∧
      (QJsValue.from_int n).into_float = .error (.jsValueError "unexpected type") ∧
      (QJsValue.from_int n).into_string = .error (.jsValueError "unexpected type")) ∧
    (∀ x : Float64,
      (QJsValue.from_float x).is_float = true ∧
      (QJsValue.from_float x).into_float = .ok x ∧
      (QJsValue.from_float x).into_bool = .error (.jsValueError "unexpected type") ∧
      (QJsValue.from_float x).into_int = .error (.jsValueError "unexpected type") ∧
      (QJsValue.from_float x).into_string = .error (.jsValueError "unexpected type")) ∧
    (∀ s : String,
      (QJsValue.from_string s).is_string = true ∧
      (QJsValue.from_string s).into_string = .ok s ∧
      (QJsValue.from_string s).into_bool = .error (.jsValueError "unexpected type") ∧
      (QJsValue.from_string s).into_int = .error (.jsValueError "unexpected type") ∧
      (QJsValue.from_string s).into_float = .error (.jsValueError "unexpected type")) :=
  ⟨fun _ => ⟨rfl, rfl, rfl, rfl, rfl⟩, fun _ => ⟨rfl, rfl, rfl, rfl, rfl⟩,
   fun _ => ⟨rfl, rfl, rfl, rfl, rfl⟩, fun _ => ⟨rfl, rfl, rfl, rfl, rfl⟩,
   fun _ => ⟨rfl, rfl, rfl, rfl, rfl⟩, fun _ => ⟨rfl, rfl, rfl, rfl, rfl⟩,
   fun _ => ⟨rfl, rfl, rfl, rfl, rfl⟩, fun _ => ⟨rfl, rfl, rfl, rfl, rfl⟩⟩

/-- C1 counterexample: an ENGINE-PRODUCED duktabe `Number` (here the bit
pattern of 2.0) is float-tagged — `is_float` holds — yet `into_int` on it
SUCCEEDS, returning the `as i32` cast of the payload, instead of failing
with a `ValueError` as the claim states for every float-tagged value; the
cast is itself an implicit numeric coercion. -/
theorem duccNumber_intoInt_succeeds_on_float_tagged :
    (Value.ducc ⟨0, DuccValue.number (1024 * 2 ^ 52)⟩).is_float = true ∧
    (Value.ducc ⟨0, DuccValue.number (1024 * 2 ^ 52)⟩).into_int = .ok 2 := by
  exact ⟨rfl, rfl⟩

/-- C1 (amended): for HOST-constructed values every narrowing accessor
succeeds exactly when the runtime tag matches and a mismatch yields a
`ValueError`; in particular `into_float (from_int i)` and
`into_int (from_float x)` fail with a `ValueError`.  Engine-produced
`Number` values, whose native representation merges int and float, are both
int- and float-tagged, and both `into_int` (via the `as i32` cast) and
`into_float` succeed on them. -/
theorem narrowing_strict_on_host_values :
    (∀ v : Value, v.isHost = true →
      v.into_bool.isOk = v.is_bool ∧
      v.into_int.isOk = v.is_int ∧
      v.into_float.isOk = v.is_float ∧
      v.into_string.isOk = v.is_string ∧
      (v.is_bool = false → ∃ d, v.into_bool = .error (.jsValueError d)) ∧
      (v.is_int = false → ∃ d, v.into_int = .error (.jsValueError d)) ∧
      (v.is_float = false → ∃ d, v.into_float = .error (.jsValueError d)) ∧
      (v.is_string = false → ∃ d, v.into_string = .error (.jsValueError d))) ∧
    (∀ i : Int, (Value.from_int i).into_float = .error (.jsValueError "not a float")) ∧
    (∀ x : Float64, (Value.from_float x).into_int = .error (.jsValueError "not an int")) ∧
    (∀ (eid : Nat) (w : Float64),
      (Value.ducc ⟨eid, DuccValue.number w⟩).is_int = true ∧
      (Value.ducc ⟨eid, DuccValue.number w⟩).is_float = true ∧
      (Value.ducc ⟨eid, DuccValue.number w⟩).into_int = .ok (f64AsI32 w) ∧
      (Value.ducc ⟨eid, DuccValue.number w⟩).into_float = .ok w) := by
  refine ⟨fun v hv => ?_, fun i => rfl, fun x => rfl,
    fun eid w => ⟨rfl, rfl, rfl, rfl⟩⟩
  cases v <;>
    simp_all [Value.isHost, Value.into_bool, Value.into_int, Value.into_float,
      Value.into_string, Value.is_bool, Value.is_int, Value.is_float,
      Value.is_string, Except.isOk, Except.toBool]

/-- Witness for the amended C1: the host value `from_int 42` instantiates
the host-value clause; its hypothesis `isHost = true` holds by computation. -/
theorem narrowing_strict_on_host_values_witness :
    (Value.from_int 42).into_bool.isOk = (Value.from_int 42).is_bool ∧
    (Value.from_int 42).into_int.isOk = (Value.from_int 42).is_int ∧
    (Value.from_int 42).into_float.isOk = (Value.from_int 42).is_float ∧
    (Value.from_int 42).into_string.isOk = (Value.from_int 42).is_string ∧
    ((Value.from_int 42).is_bool = false →
      ∃ d, (Value.from_int 42).into_bool = .error (.jsValueError d)) ∧
    ((Value.from_int 42).is_int = false →
      ∃ d, (Value.from_int 42).into_int = .error (.jsValueError d)) ∧
    ((Value.from_int 42).is_float = false →
      ∃ d, (Value.from_int 42).into_float = .error (.jsValueError d)) ∧
    ((Value.from_int 42).is_string = false →
      ∃ d, (Value.from_int 42).into_string = .error (.jsValueError d)) :=
  narrowing_strict_on_host_values.1 (Value.from_int 42) rfl

theorem mem_hmKeys_foldl {κ α : Type} [DecidableEq κ] (a : κ) (l : List (κ × α))
    (acc : List (κ × α)) :
    a ∈ hmKeys (l.foldl (fun m kv => hmInsert kv.1 kv.2 m) acc) ↔
      a ∈ hmKeys l ∨ a ∈ hmKeys acc := by
  induction l generalizing acc with
  | nil => simp
  | cons kv rest ih =>
    simp [List.foldl_cons, ih, mem_hmKeys_hmInsert]
    tauto

theorem mem_hmKeys_hmOfList {κ α : Type} [DecidableEq κ] (a : κ) (l : List (κ × α)) :
    a ∈ hmKeys (hmOfList l) ↔ a ∈ hmKeys l := by
  simp [hmOfList, mem_hmKeys_foldl]

theorem duccErrorDisplay_ne_empty (e : DuccError) : duccErrorDisplay e ≠ "" := by
  cases e with
  | toJsConversionError f t =>
    intro h
    have hl := congrArg String.length h
    simp only [duccErrorDisplay, String.length_append, String.length_empty] at hl
    have h1 : ("error converting " : String).length = 17 := rfl
    have h2 : (" to JS " : String).length = 7 := rfl
    omega
  | fromJsConversionError f t =>
    intro h
    have hl := congrArg String.length h
    simp only [duccErrorDisplay, String.length_append, String.length_empty] at hl
    have h1 : ("error converting JS " : String).length = 20 := rfl
    have h2 : (" to " : String).length = 4 := rfl
    omega
  | runtimeError c name =>
    intro h
    have hl := congrArg String.length h
    simp only [duccErrorDisplay, String.length_append, String.length_empty] at hl
    have h1 : ("runtime error: " : String).length = 15 := rfl
    omega
  | externalError m =>
    intro h
    have hl := congrArg String.length h
    simp only [duccErrorDisplay, String.length_append, String.length_empty] at hl
    have h1 : ("external error: " : String).length = 16 := rfl
    omega

theorem wasmDebugFormat_ne_empty (v : WasmJsV) : wasmDebugFormat v ≠ "" := by
  intro h
  have hl := congrArg String.length h
  simp only [wasmDebugFormat, String.length_append, String.length_empty] at hl
  have h1 : ("JsValue(" : String).length = 8 := rfl
  have h2 : (")" : String).length = 1 := rfl
  omega

theorem renderMany_cached_failure (init : Except Error JsContext)
    (callRender : JsContext → String → OptsLib → Except Error String)
    (calls : List (String × OptsLib)) (st : ThreadCache) (e : Error)
    (h : st.slot = some (.error e)) :
    renderMany init callRender calls st =
      (calls.map (fun _ => .error e.clone), st) := by
  induction calls with
  | nil => simp [renderMany]
  | cons c rest ih =>
    obtain ⟨i, o⟩ := c
    simp [renderMany, renderWithOpts, cacheAccess, h, ih]

/-- C2: the per-thread cache memoizes the first initialization outcome
forever.  On a thread whose initializer fails with `e`, the first
`render_with_opts` call stores `Err e`, bumps the construction counter
exactly once, and every call in the sequence — first and all subsequent —
returns a clone of the same cached error; no re-initialization occurs. -/
theorem cached_init_failure_is_stable
    (e : Error) (callRender : JsContext → String → OptsLib → Except Error String)
    (st : ThreadCache) (c : String × OptsLib) (rest : List (String × OptsLib))
    (h : st.slot = none) :
    renderMany (.error e) callRender (c :: rest) st =
      ((c :: rest).map (fun _ => .error e.clone),
       { slot := some (.error e), initCount := st.initCount + 1 }) := by
  obtain ⟨i, o⟩ := c
  have h1 := renderMany_cached_failure (.error e) callRender rest
    { slot := some (.error e), initCount := st.initCount + 1 } e rfl
  simp [renderMany, renderWithOpts, cacheAccess, h, h1]

/-- Witness for C2: a thread whose initializer fails with `JsInitError
"boom"` returns that same error for both calls of a two-call sequence and
runs the initializer exactly once. -/
theorem cached_init_failure_is_stable_witness :
    renderMany (.error (.jsInitError "boom")) (fun _ _ _ => .ok "")
      [("a", {}), ("b", {})] {} =
      ([.error ((Error.jsInitError "boom").clone),
        .error ((Error.jsInitError "boom").clone)],
       { slot := some (.error (.jsInitError "boom")), initCount := 1 }) :=
  cached_init_failure_is_stable (.jsInitError "boom") (fun _ _ _ => .ok "")
    {} ("a", {}) [("b", {})] rfl

/-- C3: an engine-borrowed value supplied to a DIFFERENT engine is rejected
with a ducc `ReferenceError` ("different engines") rather than having its
memory reinterpreted — `to_value` returns no value at all — and, lifted
through `call_function` on the other engine, the operation fails with a
`JsExecError` carrying that reference-mismatch text. -/
theorem cross_engine_value_rejected :
    (∀ (w : ValueDucc) (target : Nat), w.engine ≠ target →
      w.to_value target =
        .error (.runtimeError .referenceError "different engines")) ∧
    (∀ (eid fid : Nat)
       (callOutcome : Nat → List DuccValue → Except DuccError DuccValue)
       (w : ValueDucc) (rest : List Value), w.engine ≠ eid →
      engineCallFunction eid (.ok fid) callOutcome (Value.ducc w :: rest) =
        .error (.jsExecError (duccErrorDisplay
          (.runtimeError .referenceError "different engines")))) := by
  constructor
  · intro w target h
    simp [ValueDucc.to_value, h]
  · intro eid fid co w rest h
    simp [engineCallFunction, marshalList, marshalValue, ValueDucc.to_value, h]

/-- Witness for C3: a value borrowed from engine 1 is rejected by engine 0,
both directly and through `call_function`. -/
theorem cross_engine_value_rejected_witness :
    (ValueDucc.mk 1 DuccValue.null).to_value 0 =
      .error (.runtimeError .referenceError "different engines") ∧
    engineCallFunction 0 (.ok 7) (fun _ _ => .ok DuccValue.undefined)
      [Value.ducc ⟨1, DuccValue.null⟩] =
      .error (.jsExecError (duccErrorDisplay
        (.runtimeError .referenceError "different engines"))) :=
  ⟨cross_engine_value_rejected.1 ⟨1, DuccValue.null⟩ 0 (by decide),
   cross_engine_value_rejected.2 0 7 (fun _ _ => .ok DuccValue.undefined)
     ⟨1, DuccValue.null⟩ [] (by decide)⟩

/-- C5: `eval` never panics on malformed script input.  For every native
outcome, the duktabe `eval` returns either a value or a `JsExecError` whose
detail is the native error's (non-empty) display text; likewise the wasm_js
`eval` for every host outcome.  In particular a syntactically invalid
source, on which the native engine reports an error, yields a recoverable
`ExecError` with a non-empty detail. -/
theorem eval_malformed_source_exec_error :
    (∀ (eid : Nat) (outcome : Except DuccError DuccValue),
      (∃ v, engineEval eid outcome = .ok v) ∨
      (∃ e, outcome = .error e ∧
        engineEval eid outcome = .error (.jsExecError (duccErrorDisplay e)) ∧
        duccErrorDisplay e ≠ "")) ∧
    (∀ outcome : Except WasmJsV WasmJsV,
      (∃ v, wasmEval outcome = .ok v) ∨
      (∃ e, outcome = .error e ∧
        wasmEval outcome = .error (.jsExecError (wasmDebugFormat e)) ∧
        wasmDebugFormat e ≠ "")) := by
  constructor
  · intro eid outcome
    cases outcome with
    | ok v => exact Or.inl ⟨_, rfl⟩
    | error e => exact Or.inr ⟨e, rfl, rfl, duccErrorDisplay_ne_empty e⟩
  · intro outcome
    cases outcome with
    | ok v => exact Or.inl ⟨_, rfl⟩
    | error e => exact Or.inr ⟨e, rfl, rfl, wasmDebugFormat_ne_empty e⟩

/-- C6 counterexample: on the duktape (scoped) backend, calling a name that
denotes no global — here an empty global table and the name "missingFn" —
does NOT return an `ExecError`: the missing global reads back as
`undefined`, its conversion to `ducc::Function` fails with a from-JS
conversion error, and duktape.rs's `From<ducc::Error>` maps that kind to
`JsValueError`. -/
theorem duktape_missing_global_value_error :
    scopeCallFunction [] (fun _ _ => .ok DuccValue.undefined) "missingFn" [] =
      .error (.jsValueError
        (duccErrorDisplay (.fromJsConversionError "undefined" "Function"))) ∧
    (match scopeCallFunction [] (fun _ _ => .ok DuccValue.undefined) "missingFn" [] with
      | .error (.jsExecError _) => False
      | _ => True) :=
  ⟨rfl, trivial⟩

/-- C6 (amended): a `call_function` lookup failure surfaces per backend: on
the duktape scoped backend a missing global becomes a from-JS conversion
failure mapped to `ValueError`; on the duktabe backend every native failure
— lookup failure or native exception — is stringified into `ExecError`
(so an exception's message is captured in the detail); on the quick_js
backend every native `ExecutionError`, a missing callable included, maps to
`ExecError` with the native message; on the wasm backend host failures are
stringified into `ExecError`. -/
theorem call_function_missing_name_errors :
    (∀ (globals : List (List Nat × DuccValue)) (name : String)
       (co : Nat → List DuccValue → Except DuccError DuccValue)
       (args : List DuccValue),
      hmFind (strBytes name) globals = none →
      scopeCallFunction globals co name args =
        .error (.jsValueError
          (duccErrorDisplay (.fromJsConversionError "undefined" "Function")))) ∧
    (∀ (eid : Nat) (e : DuccError)
       (co : Nat → List DuccValue → Except DuccError DuccValue) (args : List Value),
      engineCallFunction eid (.error e) co args =
        .error (.jsExecError (duccErrorDisplay e))) ∧
    (∀ (eid fid : Nat) (e : DuccError) (args : List Value) (dargs : List DuccValue)
       (co : Nat → List DuccValue → Except DuccError DuccValue),
      marshalList args eid = .ok dargs →
      co fid dargs = .error e →
      engineCallFunction eid (.ok fid) co args =
        .error (.jsExecError (duccErrorDisplay e))) ∧
    (∀ (e : QExecError) (co : List QJsValue → Except QExecError QJsValue)
       (args : List QJsValue),
      co args = .error e →
      qjsCallFunction co args = .error (.jsExecError e.display)) ∧
    (∀ (e : WasmJsV) (co : WasmJsV → List WasmJsV → Except WasmJsV WasmJsV)
       (args : List WasmJsV),
      wasmCallFunction (.error e) co args =
        .error (.jsExecError (wasmDebugFormat e))) := by
  refine ⟨fun globals name co args h => ?_, fun eid e co args => rfl,
    fun eid fid e args dargs co h1 h2 => ?_,
    fun e co args h => ?_, fun e co args => rfl⟩
  · simp [scopeCallFunction, globalsGetFunction, h, errorFromDucc,
      DuccValue.typeName]
  · simp [engineCallFunction, h1, h2]
  · simp [qjsCallFunction, h, errorFromQExec]

/-- Witness for the amended C6: the concrete missing name "missingFn" on an
empty duktape global table produces the `JsValueError`, and a quick_js
native lookup failure for the same name produces the `JsExecError` carrying
the native message. -/
theorem call_function_missing_name_errors_witness :
    scopeCallFunction [] (fun _ _ => .ok DuccValue.null) "missingFn" [] =
      .error (.jsValueError
        (duccErrorDisplay (.fromJsConversionError "undefined" "Function"))) ∧
    qjsCallFunction
      (fun _ => .error ⟨"global function missingFn not found"⟩) [] =
      .error (.jsExecError "global function missingFn not found") :=
  ⟨call_function_missing_name_errors.1 [] "missingFn"
     (fun _ _ => .ok DuccValue.null) [] rfl,
   call_function_missing_name_errors.2.2.2.1
     ⟨"global function missingFn not found"⟩
     (fun _ => .error ⟨"global function missingFn not found"⟩) [] rfl⟩

/-- C7 counterexample: converting a default (all-unset) `Opts` through
lib.rs's `Into<JsValue>` does NOT yield an object with no keys: the
`macros` entry is inserted unconditionally, so the result carries exactly
the key "macros" (mapped to an empty object). -/
theorem lib_opts_default_emits_macros_key :
    OptsLib.intoJsValue {} = QJsValue.qobject [("macros", QJsValue.qobject [])] ∧
    (match OptsLib.intoJsValue {} with
      | QJsValue.qobject [] => False
      | _ => True) :=
  ⟨rfl, trivial⟩

/-- C7 (amended): the options-to-value transforms are pure functions of the
options record; opts.rs `to_js_value` emits a key exactly when the
corresponding field is set (and a keyless object for a default `Opts`),
while lib.rs's `Into<JsValue>` behaves the same except that it always emits
the "macros" key — for a default `Opts`, exactly that one key. -/
theorem opts_to_value_omits_unset_fields :
    (OptsNew.to_js_value {} = Value.vobject []) ∧
    (∀ o : OptsNew,
      (("displayMode" ∈ (OptsNew.to_js_value o).objectKeys) ↔ o.display_mode.isSome) ∧
      (("output" ∈ (OptsNew.to_js_value o).objectKeys) ↔ o.output_type.isSome) ∧
      (("leqno" ∈ (OptsNew.to_js_value o).objectKeys) ↔ o.leqno.isSome) ∧
      (("fleqn" ∈ (OptsNew.to_js_value o).objectKeys) ↔ o.fleqn.isSome) ∧
      (("throwOnError" ∈ (OptsNew.to_js_value o).objectKeys) ↔ o.throw_on_error.isSome) ∧
      (("errorColor" ∈ (OptsNew.to_js_value o).objectKeys) ↔ o.error_color.isSome) ∧
      (("macros" ∈ (OptsNew.to_js_value o).objectKeys) ↔ o.macros.isEmpty = false) ∧
      (("minRuleThickness" ∈ (OptsNew.to_js_value o).objectKeys) ↔ o.min_rule_thickness.isSome) ∧
      (("maxSize" ∈ (OptsNew.to_js_value o).objectKeys) ↔ (∃ x, o.max_size = some (some x))) ∧
      (("maxExpand" ∈ (OptsNew.to_js_value o).objectKeys) ↔ o.max_expand.isSome) ∧
      (("trust" ∈ (OptsNew.to_js_value o).objectKeys) ↔ o.trust.isSome)) ∧
    (OptsLib.intoJsValue {} = QJsValue.qobject [("macros", QJsValue.qobject [])]) := by
  refine ⟨rfl, fun o => ?_, rfl⟩
  refine ⟨?_, ?_, ?_, ?_, ?_, ?_, ?_, ?_, ?_, ?_, ?_⟩
  · simp [OptsNew.to_js_value, Value.from_object, Value.objectKeys,
      mem_hmKeys_hmOfList, mem_hmKeys_optInsert]
  · simp [OptsNew.to_js_value, Value.from_object, Value.objectKeys,
      mem_hmKeys_hmOfList, mem_hmKeys_optInsert]
  · simp [OptsNew.to_js_value, Value.from_object, Value.objectKeys,
      mem_hmKeys_hmOfList, mem_hmKeys_optInsert]
  · simp [OptsNew.to_js_value, Value.from_object, Value.objectKeys,
      mem_hmKeys_hmOfList, mem_hmKeys_optInsert]
  · simp [OptsNew.to_js_value, Value.from_object, Value.objectKeys,
      mem_hmKeys_hmOfList, mem_hmKeys_optInsert]
  · simp [OptsNew.to_js_value, Value.from_object, Value.objectKeys,
      mem_hmKeys_hmOfList, mem_hmKeys_optInsert]
  · simp only [OptsNew.to_js_value, Value.from_object, Value.objectKeys,
      mem_hmKeys_hmOfList, mem_hmKeys_optInsert]
    cases hm : o.macros.isEmpty <;> simp [hm]
  · simp [OptsNew.to_js_value, Value.from_object, Value.objectKeys,
      mem_hmKeys_hmOfList, mem_hmKeys_optInsert]
  · simp only [OptsNew.to_js_value, Value.from_object, Value.objectKeys,
      mem_hmKeys_hmOfList, mem_hmKeys_optInsert]
    rcases hms : o.max_size with _ | (_ | x) <;> simp [hms]
  · simp only [OptsNew.to_js_value, Value.from_object, Value.objectKeys,
      mem_hmKeys_hmOfList, mem_hmKeys_optInsert]
    rcases hme : o.max_expand with _ | (_ | n) <;> simp [hme]
  · simp [OptsNew.to_js_value, Value.from_object, Value.objectKeys,
      mem_hmKeys_hmOfList, mem_hmKeys_optInsert]

/-- C10: `trust` and `trust_callback` are mutually exclusive at lib.rs's
public interface: `OptsBuilder::build` rejects a builder with both assigned;
`set_trust` / `set_trust_callback` panic (modelled as an error return) when
the other is already set; consequently no `Opts` reachable through the
public construction surface carries both. -/
theorem trust_mutual_exclusion :
    (∀ b : OptsLibBuilder, b.trust.isSome → b.trust_callback.isSome →
      b.build = .error "cannot set `trust` and `trust_callback` at the same time") ∧
    (∀ (o : OptsLib) (flag : Bool), o.trust_callback.isSome →
      o.setTrust flag =
        .error "Cannot set `trust` and `trust_callback` at the same time") ∧
    (∀ (o : OptsLib) (cb : TrustCallback), o.trust.isSome →
      o.setTrustCallback cb =
        .error "Cannot set `trust` and `trust_callback` at the same time") ∧
    (∀ o : OptsLib, ReachableOpts o →
      ¬(o.trust.isSome = true ∧ o.trust_callback.isSome = true)) := by
  refine ⟨fun b h1 h2 => ?_, fun o flag h => ?_, fun o cb h => ?_, fun o h => ?_⟩
  · simp [OptsLibBuilder.build, h1, h2]
  · simp [OptsLib.setTrust, h]
  · simp [OptsLib.setTrustCallback, h]
  · induction h with
    | isDefault => simp
    | setDisplayMode o b _ ih => exact ih
    | setOutputType o t _ ih => exact ih
    | setLeqno o b _ ih => exact ih
    | setFleqn o b _ ih => exact ih
    | setThrowOnError o b _ ih => exact ih
    | setErrorColor o c _ ih => exact ih
    | addMacroEntry o k v _ ih => exact ih
    | setMinRuleThickness o x _ ih => exact ih
    | setMaxSize o x _ ih => exact ih
    | setMaxExpand o n _ ih => exact ih
    | viaSetTrust o o' flag _ heq ih =>
      rw [OptsLib.setTrust] at heq
      by_cases hcb : o.trust_callback.isSome
      · simp [hcb] at heq
      · simp [hcb] at heq
        cases heq
        simp_all
    | viaSetTrustCallback o o' cb _ heq ih =>
      rw [OptsLib.setTrustCallback] at heq
      by_cases ht : o.trust.isSome
      · simp [ht] at heq
      · simp [ht] at heq
        cases heq
        simp_all
    | viaBuild b o hb =>
      rw [OptsLibBuilder.build] at hb
      by_cases hcond : b.trust.isSome ∧ b.trust_callback.isSome
      · simp [hcond] at hb
      · simp only [hcond, if_neg, if_false, reduceIte] at hb
        cases hb
        rintro ⟨h1, h2⟩
        apply hcond
        constructor
        · cases hbt : b.trust with
          | none => rw [hbt] at h1; simp at h1
          | some y => simp
        · cases hbc : b.trust_callback with
          | none => rw [hbc] at h2; simp at h2
          | some y => simp

/-- Witness for C10: a concrete `Opts` with a callback set makes `set_trust`
panic, and a builder with both assigned fails to build. -/
theorem trust_mutual_exclusion_witness :
    ({ trust_callback := some ⟨0⟩ } : OptsLib).setTrust true =
      .error "Cannot set `trust` and `trust_callback` at the same time" ∧
    OptsLibBuilder.build
      { trust := some (some true), trust_callback := some (some ⟨1⟩) } =
      .error "cannot set `trust` and `trust_callback` at the same time" :=
  ⟨trust_mutual_exclusion.2.1 { trust_callback := some ⟨0⟩ } true rfl,
   trust_mutual_exclusion.1
     { trust := some (some true), trust_callback := some (some ⟨1⟩) } rfl rfl⟩

end KatexRs
